import Mathlib

/-!
Verification of the snippet filtering and tag handling logic of the
Sistema-Snippets application.

The embedding translates the client-side logic of the dashboard page
(`applyFilters`, the load/delete handlers) and of the snippet form
(`addTag`, the submit handler) into pure Lean functions.  Network results
are modelled as `Except String α` values so that both the success and the
error branch of each handler become explicit.
-/

namespace SnippetSystem

/-- A programming language record (table `linguagens`). -/
structure Language where
  id_linguagem : Nat
  nome : String
deriving DecidableEq

/-- A tag record (table `tags`). -/
structure Tag where
  id_tag : Nat
  nome : String
deriving DecidableEq

/-- One entry of the `snippet_tags` join as it is delivered to the client:
a wrapper holding the joined tag record. -/
structure TagLink where
  tags : Tag
deriving DecidableEq

/-- A snippet record as loaded by the dashboard (table `snippets` joined
with its language and tags). -/
structure Snippet where
  id_snippet : Nat
  titulo : String
  descricao : Option String
  codigo : String
  criado_em : String
  id_linguagem : Nat
  linguagens : Language
  snippet_tags : List TagLink
deriving DecidableEq

/-- JavaScript `toLowerCase`, modelled characterwise with the ASCII
lowering of `Char.toLower`, matching the documented ASCII scope of the
search. -/
def toLowerCase (s : String) : String :=
  ⟨s.data.map Char.toLower⟩

/-- JavaScript `trim`: strip leading and trailing whitespace. -/
def trimJS (s : String) : String :=
  ⟨(((s.data.dropWhile Char.isWhitespace).reverse.dropWhile Char.isWhitespace).reverse)⟩

/-- Does `needle` occur at the head of `hay`? -/
def startsWithList : List Char → List Char → Bool
  | [], _ => true
  | _ :: _, [] => false
  | c :: cs, d :: ds => c == d && startsWithList cs ds

/-- JavaScript `includes` on character lists: `needle` occurs contiguously
somewhere in `hay` (the empty needle always occurs). -/
def includesList (hay needle : List Char) : Bool :=
  match hay with
  | [] => needle.isEmpty
  | _ :: rest => startsWithList needle hay || includesList rest needle

/-- Case-insensitive substring test:
`hay.toLowerCase().includes(needle.toLowerCase())`. -/
def containsCI (hay needle : String) : Bool :=
  includesList (toLowerCase hay).data (toLowerCase needle).data

/-- JavaScript `parseInt` restricted to the inputs this page produces:
the selection values are decimal renderings of language identifiers, so
the model reads the longest leading run of decimal digits and fails
(`none`, the analogue of `NaN`) when there is none. -/
def parseIntJS (s : String) : Option Nat :=
  let ds := s.toList.takeWhile Char.isDigit
  if ds.isEmpty then none
  else some (ds.foldl (fun a c => a * 10 + (c.toNat - 48)) 0)

/-- The text-match predicate of the search filter: title, optional
description, or code body contains the search term case-insensitively.
A missing description short-circuits to no match for that field only,
as the optional chaining in the source does. -/
def matchesText (searchTerm : String) (snippet : Snippet) : Bool :=
  containsCI snippet.titulo searchTerm ||
  snippet.descricao.any (fun d => containsCI d searchTerm) ||
  containsCI snippet.codigo searchTerm

/-- The language-match predicate:
`snippet.id_linguagem === parseInt(selectedLanguage)`, where a failed
parse (`NaN`) compares unequal to everything. -/
def matchesLanguage (selectedLanguage : String) (snippet : Snippet) : Bool :=
  match parseIntJS selectedLanguage with
  | some n => snippet.id_linguagem == n
  | none => false

/-- The tag-match predicate: every selected tag occurs, by identifier,
among the tag links of the snippet. -/
def matchesTags (selectedTags : List Tag) (snippet : Snippet) : Bool :=
  selectedTags.all (fun selectedTag =>
    snippet.snippet_tags.any (fun st => st.tags.id_tag == selectedTag.id_tag))

/-- The `applyFilters` function of the dashboard: starting from the full
list, apply the text filter when the search term is non-empty, the
language filter when the selection is truthy and not the sentinel `all`,
and the tag filter when some tags are selected. -/
def applyFilters (snippets : List Snippet) (searchTerm : String)
    (selectedLanguage : String) (selectedTags : List Tag) : List Snippet :=
  let filtered := snippets
  let filtered := if searchTerm == "" then filtered
    else filtered.filter (matchesText searchTerm)
  let filtered := if selectedLanguage == "" || selectedLanguage == "all" then filtered
    else filtered.filter (matchesLanguage selectedLanguage)
  let filtered := if selectedTags.length == 0 then filtered
    else filtered.filter (matchesTags selectedTags)
  filtered

/-- The combined keep-predicate of `applyFilters`: each step keeps a
snippet when its criterion is inactive or its predicate holds. -/
def keepPred (searchTerm selectedLanguage : String) (selectedTags : List Tag)
    (snippet : Snippet) : Bool :=
  (searchTerm == "" || matchesText searchTerm snippet) &&
  ((selectedLanguage == "" || selectedLanguage == "all") ||
    matchesLanguage selectedLanguage snippet) &&
  (selectedTags.length == 0 || matchesTags selectedTags snippet)

theorem applyFilters_eq_filter (snippets : List Snippet) (searchTerm : String)
    (selectedLanguage : String) (selectedTags : List Tag) :
    applyFilters snippets searchTerm selectedLanguage selectedTags =
      snippets.filter (keepPred searchTerm selectedLanguage selectedTags) := by
  unfold applyFilters keepPred
  cases hq : (searchTerm == "") <;>
    cases hl : (selectedLanguage == "" || selectedLanguage == "all") <;>
      cases ht : (selectedTags.length == 0) <;>
        simp [hq, hl, ht, List.filter_filter] <;>
        (apply List.filter_congr ; intro a ha ;
          simp [Bool.and_comm, Bool.and_left_comm, Bool.and_assoc])

theorem mem_applyFilters {snippets : List Snippet} {searchTerm : String}
    {selectedLanguage : String} {selectedTags : List Tag} {s : Snippet} :
    s ∈ applyFilters snippets searchTerm selectedLanguage selectedTags ↔
      s ∈ snippets ∧ keepPred searchTerm selectedLanguage selectedTags s = true := by
  rw [applyFilters_eq_filter]
  simp [List.mem_filter]

/-- A toast notification as produced by the `toast` helper. -/
structure Toast where
  title : String
  description : String
  destructive : Bool
deriving DecidableEq

/-- The collections held by the dashboard page. -/
structure DashState where
  snippets : List Snippet
  languages : List Language
  allTags : List Tag
deriving DecidableEq

/-- Continuation of `loadSnippets` once the request resolves: success
stores the rows, failure shows a destructive toast and touches nothing. -/
def loadSnippetsResult (st : DashState) (r : Except String (List Snippet)) :
    DashState × List Toast :=
  match r with
  | .ok data => ({ st with snippets := data }, [])
  | .error msg => (st, [⟨"Erro ao carregar snippets", msg, true⟩])

/-- Continuation of `loadLanguages` once the request resolves. -/
def loadLanguagesResult (st : DashState) (r : Except String (List Language)) :
    DashState × List Toast :=
  match r with
  | .ok data => ({ st with languages := data }, [])
  | .error msg => (st, [⟨"Erro ao carregar linguagens", msg, true⟩])

/-- Continuation of `loadTags` once the request resolves. -/
def loadTagsResult (st : DashState) (r : Except String (List Tag)) :
    DashState × List Toast :=
  match r with
  | .ok data => ({ st with allTags := data }, [])
  | .error msg => (st, [⟨"Erro ao carregar tags", msg, true⟩])

/-- Continuation of `handleDelete` once the checked delete resolves:
success toasts and triggers a reload (modelled separately by
`loadSnippetsResult`), failure toasts; neither branch mutates the
collections directly. -/
def handleDeleteResult (st : DashState) (r : Except String Unit) :
    DashState × List Toast :=
  match r with
  | .ok _ => (st, [⟨"Snippet excluído", "O snippet foi removido com sucesso", false⟩])
  | .error msg => (st, [⟨"Erro ao excluir", msg, true⟩])

/-- Continuation of the create branch of `handleSubmit`: success toasts
and defers to `onSave` (a reload), failure toasts; the dashboard
collections are not mutated in either branch. -/
def insertSnippetResult (st : DashState) (r : Except String Unit) :
    DashState × List Toast :=
  match r with
  | .ok _ => (st, [⟨"Snippet criado!", "Seu snippet foi salvo com sucesso", false⟩])
  | .error msg => (st, [⟨"Erro ao salvar", msg, true⟩])

/-- Continuation of the update branch of `handleSubmit`. -/
def updateSnippetResult (st : DashState) (r : Except String Unit) :
    DashState × List Toast :=
  match r with
  | .ok _ => (st, [⟨"Snippet atualizado!", "As alterações foram salvas com sucesso", false⟩])
  | .error msg => (st, [⟨"Erro ao salvar", msg, true⟩])

/-- The collections held by the snippet form. -/
structure FormState where
  languages : List Language
  allTags : List Tag
  selectedTags : List Tag
deriving DecidableEq

/-- The existence check of `addTag`: first tag of the global collection
whose name equals the candidate name case-insensitively.  The candidate
is compared as given (the source lowercases `newTag`, not
`newTag.trim()`). -/
def lookupCI (tags : List Tag) (name : String) : Option Tag :=
  tags.find? (fun tag => toLowerCase tag.nome == toLowerCase name)

/-- The `addTag` handler of the snippet form.  `insertResult` is the
outcome of the tag insert (the generated identifier on success), consulted
only when the existence check misses.  Returns the new form state and the
toasts shown. -/
def addTag (insertResult : Except String Nat) (name : String) (st : FormState) :
    FormState × List Toast :=
  if trimJS name == "" then (st, [])
  else
    match lookupCI st.allTags name with
    | some existingTag =>
      if (st.selectedTags.find? (fun tag => tag.id_tag == existingTag.id_tag)).isNone then
        ({ st with selectedTags := st.selectedTags ++ [existingTag] }, [])
      else (st, [])
    | none =>
      match insertResult with
      | .ok newId =>
        let newTagObj : Tag := ⟨newId, trimJS name⟩
        ({ st with allTags := st.allTags ++ [newTagObj],
                   selectedTags := st.selectedTags ++ [newTagObj] }, [])
      | .error msg => (st, [⟨"Erro ao criar tag", msg, true⟩])

/-! Concrete records used to instantiate the witnesses, following the
scenario of the testable properties section. -/

def demoLangPython : Language := ⟨1, "Python"⟩

def demoLangGo : Language := ⟨2, "Go"⟩

def demoTagUtil : Tag := ⟨3, "util"⟩

def demoSort : Snippet :=
  ⟨1, "Sort", none, "function sortAll", "2024-01-01", 1, demoLangPython, []⟩

def demoMap : Snippet :=
  ⟨2, "Map", some "mapping helper", "func map", "2024-01-02", 2, demoLangGo,
    [⟨demoTagUtil⟩]⟩

def demoSnips : List Snippet := [demoSort, demoMap]

/-- Claim C5: filtering with empty criteria (empty query, language
sentinel all, empty tag set) returns the snippet list unchanged in its
original order, and an empty snippet list yields an empty result for any
criteria. -/
theorem emptyCriteria_identity :
    (∀ S : List Snippet, applyFilters S "" "all" [] = S) ∧
    (∀ (Q L : String) (T : List Tag), applyFilters [] Q L T = []) := by
  constructor
  · intro S
    rw [applyFilters_eq_filter]
    simp [keepPred]
  · intro Q L T
    rw [applyFilters_eq_filter]
    simp

/-- Claim C7: for every combination of criteria the filter result is an
order-preserving subsequence of the input list. -/
theorem applyFilters_sublist (S : List Snippet) (Q L : String) (T : List Tag) :
    List.Sublist (applyFilters S Q L T) S := by
  rw [applyFilters_eq_filter]
  exact List.filter_sublist S

/-- Claim C10: the empty-string language selection is treated like the
sentinel all — the language step keeps every snippet — even though it is
neither the sentinel nor a valid language identifier. -/
theorem emptyLanguage_keeps_all (S : List Snippet) (Q : String) (T : List Tag) :
    applyFilters S Q "" T = applyFilters S Q "all" T ∧
    applyFilters S "" "" [] = S := by
  constructor
  · rw [applyFilters_eq_filter, applyFilters_eq_filter]
    apply List.filter_congr
    intro s _
    simp [keepPred]
  · rw [applyFilters_eq_filter]
    simp [keepPred]

/-- Claim C4: combining the filters is conjunctive — the combined result
equals the intersection (as an order-preserving restriction of S) of the
text filter, the language filter, and the tag filter each applied to S
independently. -/
theorem filters_conjunctive (S : List Snippet) (Q L : String) (T : List Tag) :
    applyFilters S Q L T =
      S.filter (fun s =>
        decide (s ∈ applyFilters S Q "all" []) &&
        decide (s ∈ applyFilters S "" L []) &&
        decide (s ∈ applyFilters S "" "all" T)) := by
  rw [applyFilters_eq_filter]
  apply List.filter_congr
  intro s hs
  have hdec : ∀ (Q2 L2 : String) (T2 : List Tag),
      decide (s ∈ applyFilters S Q2 L2 T2) = keepPred Q2 L2 T2 s := by
    intro Q2 L2 T2
    rw [applyFilters_eq_filter]
    simp [List.mem_filter, hs]
  rw [hdec, hdec, hdec]
  simp [keepPred, Bool.and_assoc]

/-- Claim C1: with a non-empty query (language all, no tags) the filter
keeps exactly the snippets whose title, description (when present), or
code contains the query case-insensitively; a snippet with no description
is still kept whenever its title or code matches. -/
theorem textFilter_correct (S : List Snippet) (Q : String) (hQ : Q ≠ "") :
    (∀ s, s ∈ applyFilters S Q "all" [] ↔ s ∈ S ∧ matchesText Q s = true) ∧
    (∀ s, s ∈ S → s.descricao = none →
      (containsCI s.titulo Q || containsCI s.codigo Q) = true →
      s ∈ applyFilters S Q "all" []) := by
  have hmem : ∀ s : Snippet,
      s ∈ applyFilters S Q "all" [] ↔ s ∈ S ∧ matchesText Q s = true := by
    intro s
    rw [mem_applyFilters]
    simp [keepPred, hQ]
  refine ⟨hmem, ?_⟩
  intro s hs hdesc hmatch
  refine (hmem s).2 ⟨hs, ?_⟩
  have h2 : containsCI s.titulo Q = true ∨ containsCI s.codigo Q = true := by
    simpa using hmatch
  rcases h2 with h | h <;> simp [matchesText, hdesc, h]

/-- Witness for C1 at the scenario input: searching for sort keeps the
Sort snippet (whose description is absent). -/
theorem textFilter_correct_witness :
    demoSort ∈ applyFilters demoSnips "sort" "all" [] ↔
      demoSort ∈ demoSnips ∧ matchesText "sort" demoSort = true :=
  (textFilter_correct demoSnips "sort" (by decide)).1 demoSort

/-- Claim C3: with a non-empty tag selection (no query, language all) the
filter keeps exactly the snippets whose tag set is a superset of the
selection, membership being decided by tag identifier. -/
theorem tagFilter_superset (S : List Snippet) (T : List Tag) (hT : T ≠ []) :
    ∀ s, s ∈ applyFilters S "" "all" T ↔
      s ∈ S ∧ ∀ t ∈ T, ∃ st ∈ s.snippet_tags, st.tags.id_tag = t.id_tag := by
  intro s
  rw [mem_applyFilters]
  have hlen : (T.length == 0) = false := by
    cases T with
    | nil => exact absurd rfl hT
    | cons a l => rfl
  simp [keepPred, hlen, matchesTags, List.all_eq_true, List.any_eq_true]

/-- Witness for C3 at the scenario input: filtering by the util tag keeps
the Map snippet. -/
theorem tagFilter_superset_witness :
    demoMap ∈ applyFilters demoSnips "" "all" [demoTagUtil] ↔
      demoMap ∈ demoSnips ∧
        ∀ t ∈ [demoTagUtil], ∃ st ∈ demoMap.snippet_tags,
          st.tags.id_tag = t.id_tag :=
  tagFilter_superset demoSnips [demoTagUtil] (by decide) demoMap

/-- Claim C6: with a specific language selection (not the sentinel all)
denoting identifier n, the filter keeps exactly the snippets whose
language identifier equals n. -/
theorem languageFilter_correct (S : List Snippet) (L : String) (n : Nat)
    (hall : L ≠ "all") (hparse : parseIntJS L = some n) :
    ∀ s, s ∈ applyFilters S "" L [] ↔ s ∈ S ∧ s.id_linguagem = n := by
  have hne : L ≠ "" := by
    intro h
    rw [h] at hparse
    simp [parseIntJS] at hparse
  intro s
  rw [mem_applyFilters]
  simp [keepPred, hne, hall, matchesLanguage, hparse]

/-- Witness for C6 at the scenario input: selecting Go (identifier 2)
keeps the Map snippet. -/
theorem languageFilter_correct_witness :
    demoMap ∈ applyFilters demoSnips "" "2" [] ↔
      demoMap ∈ demoSnips ∧ demoMap.id_linguagem = 2 :=
  languageFilter_correct demoSnips "2" 2 (by decide) (by decide) demoMap

/-- Counterexample for C2: the candidate name with surrounding whitespace
trims to a name that matches the existing tag case-insensitively, yet the
handler appends a second Tag to the global collection, because its
existence check lowercases the candidate as typed rather than after
trimming. -/
theorem addTag_untrimmed_lookup_cex :
    toLowerCase (trimJS " python ") = toLowerCase "python" ∧
    (addTag (Except.ok 2) " python " ⟨[], [⟨1, "python"⟩], []⟩).1.allTags
      = [⟨1, "python"⟩, ⟨2, "python"⟩] := by decide

/-- Amended C2: the handler is a no-op when the trimmed name is empty;
otherwise the case-insensitive lookup compares the candidate name as
typed (not trimmed) — on a hit no Tag is created and the existing Tag is
appended to the selection unless already present, and on a miss a new Tag
carrying the trimmed name is appended to the global collection and to the
selection. -/
theorem addTag_behavior (fresh : Nat) (name : String) (st : FormState) :
    (trimJS name = "" → addTag (Except.ok fresh) name st = (st, [])) ∧
    (trimJS name ≠ "" → ∀ t, lookupCI st.allTags name = some t →
      (addTag (Except.ok fresh) name st).1.allTags = st.allTags ∧
      (st.selectedTags.find? (fun g => g.id_tag == t.id_tag) = none →
        (addTag (Except.ok fresh) name st).1.selectedTags
          = st.selectedTags ++ [t]) ∧
      ((st.selectedTags.find? (fun g => g.id_tag == t.id_tag)).isSome = true →
        (addTag (Except.ok fresh) name st).1 = st)) ∧
    (trimJS name ≠ "" → lookupCI st.allTags name = none →
      (addTag (Except.ok fresh) name st).1.allTags
          = st.allTags ++ [⟨fresh, trimJS name⟩] ∧
      (addTag (Except.ok fresh) name st).1.selectedTags
          = st.selectedTags ++ [⟨fresh, trimJS name⟩]) := by
  refine ⟨?_, ?_, ?_⟩
  · intro h
    simp [addTag, h]
  · intro h t hfind
    have hbe : (trimJS name == "") = false := by simp [h]
    cases hsel : st.selectedTags.find? (fun g => g.id_tag == t.id_tag) with
    | none =>
      refine ⟨?_, ?_, ?_⟩
      · simp [addTag, hbe, hfind, hsel]
      · intro _
        simp [addTag, hbe, hfind, hsel]
      · intro hcontra
        simp at hcontra
    | some g =>
      refine ⟨?_, ?_, ?_⟩
      · simp [addTag, hbe, hfind, hsel]
      · intro hcontra
        simp at hcontra
      · intro _
        simp [addTag, hbe, hfind, hsel]
  · intro h hfind
    have hbe : (trimJS name == "") = false := by simp [h]
    constructor <;> simp [addTag, hbe, hfind]

/-- Witness for the amended C2: adding a padded name when only the
unpadded lowercase name exists takes the miss branch and stores the
trimmed name. -/
theorem addTag_behavior_witness :
    (addTag (Except.ok 2) " Python " ⟨[], [⟨1, "python"⟩], []⟩).1.allTags
        = [⟨1, "python"⟩] ++ [⟨2, trimJS " Python "⟩] ∧
    (addTag (Except.ok 2) " Python " ⟨[], [⟨1, "python"⟩], []⟩).1.selectedTags
        = [] ++ [⟨2, trimJS " Python "⟩] :=
  (addTag_behavior 2 " Python " ⟨[], [⟨1, "python"⟩], []⟩).2.2
    (by decide) (by decide)

/-- Claim C8: invoking the handler twice with a name whose
case-insensitive lookup hits an existing tag creates no new Tag, and when
the tag was not yet selected it ends up in the selection exactly once. -/
theorem addTag_twice_no_dup (f1 f2 : Nat) (name : String) (st : FormState)
    (t : Tag)
    (hfind : lookupCI st.allTags name = some t)
    (htrim : trimJS name ≠ "")
    (hsel : st.selectedTags.find? (fun g => g.id_tag == t.id_tag) = none) :
    ((addTag (Except.ok f2) name
        (addTag (Except.ok f1) name st).1).1).allTags = st.allTags ∧
    ((addTag (Except.ok f2) name
        (addTag (Except.ok f1) name st).1).1).selectedTags
      = st.selectedTags ++ [t] := by
  have hbe : (trimJS name == "") = false := by simp [htrim]
  have h1 : (addTag (Except.ok f1) name st).1
      = { st with selectedTags := st.selectedTags ++ [t] } := by
    simp [addTag, hbe, hfind, hsel]
  have hfind2 : lookupCI (st.allTags) name = some t := hfind
  have hsel2 : (st.selectedTags ++ [t]).find? (fun g => g.id_tag == t.id_tag)
      = some t := by
    rw [List.find?_append, hsel]
    simp
  have h2 : (addTag (Except.ok f2) name
        ({ st with selectedTags := st.selectedTags ++ [t] } : FormState)).1
      = { st with selectedTags := st.selectedTags ++ [t] } := by
    simp [addTag, hbe, hfind2, hsel2]
  rw [h1, h2]
  exact ⟨rfl, rfl⟩

/-- Witness for C8: adding Python twice when python exists leaves the
global collection unchanged and the existing tag selected once. -/
theorem addTag_twice_no_dup_witness :
    ((addTag (Except.ok 8) "Python"
        (addTag (Except.ok 7) "Python" ⟨[], [⟨1, "python"⟩], []⟩).1).1).allTags
        = [⟨1, "python"⟩] ∧
    ((addTag (Except.ok 8) "Python"
        (addTag (Except.ok 7) "Python" ⟨[], [⟨1, "python"⟩], []⟩).1).1).selectedTags
        = [] ++ [⟨1, "python"⟩] :=
  addTag_twice_no_dup 7 8 "Python" ⟨[], [⟨1, "python"⟩], []⟩ ⟨1, "python"⟩
    (by decide) (by decide) rfl

/-- Claim C9: every fallible operation leaves the in-memory collections
unchanged on failure, emitting only a destructive toast: the three loads,
the delete, the insert and update branches of the submit handler, and the
tag insert inside the add-tag handler. -/
theorem errorBranch_preserves_state (st : DashState) (fst : FormState)
    (name msg : String) :
    loadSnippetsResult st (Except.error msg)
        = (st, [⟨"Erro ao carregar snippets", msg, true⟩]) ∧
    loadLanguagesResult st (Except.error msg)
        = (st, [⟨"Erro ao carregar linguagens", msg, true⟩]) ∧
    loadTagsResult st (Except.error msg)
        = (st, [⟨"Erro ao carregar tags", msg, true⟩]) ∧
    handleDeleteResult st (Except.error msg)
        = (st, [⟨"Erro ao excluir", msg, true⟩]) ∧
    insertSnippetResult st (Except.error msg)
        = (st, [⟨"Erro ao salvar", msg, true⟩]) ∧
    updateSnippetResult st (Except.error msg)
        = (st, [⟨"Erro ao salvar", msg, true⟩]) ∧
    (trimJS name ≠ "" → lookupCI fst.allTags name = none →
      addTag (Except.error msg) name fst
        = (fst, [⟨"Erro ao criar tag", msg, true⟩])) := by
  refine ⟨rfl, rfl, rfl, rfl, rfl, rfl, ?_⟩
  intro h hfind
  have hbe : (trimJS name == "") = false := by simp [h]
  simp [addTag, hbe, hfind]

/-- Witness for C9: a failing tag insert leaves the empty form state
untouched and only toasts. -/
theorem errorBranch_preserves_state_witness :
    addTag (Except.error "boom") "newtag" ⟨[], [], []⟩
      = (⟨[], [], []⟩, [⟨"Erro ao criar tag", "boom", true⟩]) :=
  ((errorBranch_preserves_state ⟨[], [], []⟩ ⟨[], [], []⟩
      "newtag" "boom").2.2.2.2.2.2) (by decide) rfl

end SnippetSystem
